import Mathlib

/-!
Verification of the `golang-exec` SSH runner (`runner/ssh/runner.go`).

The embedding models the package shallowly:

* External effects (filesystem reads for the private key, home-directory
  expansion, the known-hosts file, dialing, opening an ssh session, and the
  outcome of running the remote command) are supplied through explicit
  environment records (`Env`, `ExecEnv`) whose fields hold the results the
  corresponding Go library calls would return.
* Go errors are modelled by `GoError`: either a structured
  `ssh.ExitError` carrying the remote exit status, or a plain error message.
* `fmt.Errorf("context: %w", cause)` wrapping is modelled by `Wrapped`,
  keeping the context string and the wrapped cause separately, mirroring
  `errors.Unwrap`.
* `New` additionally returns the list of side effects it performed
  (`Effect`), in order, so that claims about "no network activity" or
  "never consults the trust store" can be stated over the trace.

The `script` collaborator package is not part of the core sources; its
surface used by the runner (`Error` field, `Command()`, `NewReader`) is
modelled from the spec, see `Script`.
-/

namespace GolangExec

/-- A Go `error` value as seen by the runner: either the structured
`ssh.ExitError` (remote command exited with the given status) or any other
error, carried as its message. -/
inductive GoError where
  | exitError (status : Nat)
  | plain (msg : String)
deriving Repr, DecidableEq

/-- Model of `fmt.Errorf("[...] context: %#w\n", cause)`: the human-readable
context prefix together with the wrapped cause (what `Unwrap` returns). -/
structure Wrapped where
  context : String
  cause : GoError
deriving Repr, DecidableEq

deriving instance DecidableEq for Except

/-- Modelled from the spec: the script collaborator (package `script`, not in
the core sources).  The runner consumes only its `Error` field (parse
failure), `Command()` (the rendered command line) and `NewReader(arguments)`
(the rendered stdin stream); the reader outcome for the arguments supplied to
`New` is carried as a field. -/
structure Script where
  name : String
  err? : Option GoError
  cmd : String
  newReader : Except GoError Unit
deriving Repr, DecidableEq

/-- An opaque parsed private-key credential (`ssh.Signer` obtained from
`ssh.ParsePrivateKey`). -/
abbrev Cred := String

/-- `ssh.AuthMethod` values the runner builds: `ssh.Password` or
`ssh.PublicKeys`. -/
inductive AuthMethod where
  | password (secret : String)
  | publicKeys (key : Cred)
deriving Repr, DecidableEq

/-- The canonical connection descriptor (`ssh.Connection`).  `port` models the
`uint16` field, `pubKey` the possibly-nil `ssh.AuthMethod`. -/
structure Connection where
  type : String
  host : String
  port : Nat
  user : String
  password : String
  pubKeyPath : String
  pubKey : Option AuthMethod
  insecure : Bool
deriving Repr, DecidableEq

/-- The zero `Connection` produced by `new(Connection)`. -/
def Connection.zero : Connection :=
  { type := "", host := "", port := 0, user := "", password := "",
    pubKeyPath := "", pubKey := none, insecure := false }

/-- The structured error type of the package (`ssh.Error`). -/
structure Error where
  script : Script
  command : String
  exitCode : Int
  err : Wrapped
deriving Repr, DecidableEq

def Error.ExitCode (e : Error) : Int := e.exitCode

def Error.Unwrap (e : Error) : GoError := e.err.cause

/-- Host-key verification policy placed into `ssh.ClientConfig`: either
`ssh.InsecureIgnoreHostKey()` or the callback built by `knownhosts.New` on
the given trust-store file path. -/
inductive HostKeyPolicy where
  | insecureIgnore
  | knownHosts (file : String)
deriving Repr, DecidableEq

/-- The part of `ssh.ClientConfig` the runner fills in. The `auth` list keeps
`Option AuthMethod` entries because the Go code may append a nil
`ssh.AuthMethod` interface value. -/
structure ClientConfig where
  user : String
  auth : List (Option AuthMethod)
  hostKey : HostKeyPolicy
deriving Repr, DecidableEq

/-- Side effects `New` (and `toConnection` inside it) can perform, in order. -/
inductive Effect where
  | resolveConn
  | loadCred (path : String)
  | expandHome
  | readKnownHosts (file : String)
  | dial (address : String) (config : ClientConfig)
  | openSession
deriving Repr, DecidableEq

/-- Results of the external calls `New` and `toConnection` make.  Each field
holds the value the corresponding library call returns in the modelled
execution. -/
structure Env where
  /-- combined `os.Stat` + `ioutil.ReadFile` + `ssh.ParsePrivateKey` outcome
  for a (non-empty) key path -/
  loadKey : String → Except GoError Cred
  /-- `homedir.Expand` outcome: the current home directory, or an error -/
  homedir : Except GoError String
  /-- `knownhosts.New f` outcome for a trust-store file path -/
  knownHosts : String → Except GoError Unit
  /-- `ssh.Dial "tcp" address config` outcome -/
  dial : String → ClientConfig → Except GoError Unit
  /-- `client.NewSession()` outcome -/
  newSession : Except GoError Unit

/-- `Connection.loadPubKey`: stat the file, read it, parse the private key.
`os.Stat("")` always fails with ENOENT, which the model bakes in; for a
non-empty path the combined outcome comes from the environment.  Errors are
returned to the caller (and printed, which the model drops). -/
def loadPubKey (env : Env) (path : String) : Except GoError Cred :=
  if path.isEmpty then .error (.plain "stat : no such file or directory")
  else env.loadKey path

/-- `strconv.ParseUint(s, 10, 16)` on a character list: non-empty, all
decimal digits, value below `2^16`; otherwise an error (the caller then uses
`0`). -/
def parseUint16Core (l : List Char) : Option Nat :=
  if l.isEmpty then none
  else if l.all Char.isDigit then
    let n := l.foldl (fun a ch => a * 10 + (ch.toNat - 48)) 0
    if n < 65536 then some n else none
  else none

def parseUint16 (s : String) : Option Nat := parseUint16Core s.data

/-- The `Port` case of the mapping path: `strconv.ParseUint(v, 10, 16)`, with
the parse error swallowed and the port defaulting to `0`. -/
def parsePort (s : String) : Nat := (parseUint16 s).getD 0

/-- `strconv.ParseBool` on an already-lowercased string: after
`strings.ToLower` only these spellings remain accepted. -/
def parseBool (s : String) : Option Bool :=
  if s = "1" ∨ s = "t" ∨ s = "true" then some true
  else if s = "0" ∨ s = "f" ∨ s = "false" then some false
  else none

/-- `strings.ToLower` (ASCII suffices for the accepted spellings). -/
def goToLower (s : String) : String := ⟨s.data.map Char.toLower⟩

/-- The `Insecure` case of the mapping path:
`strconv.ParseBool(strings.ToLower(v))` with the parse error swallowed and
the flag defaulting to `false`. -/
def parseInsecure (s : String) : Bool := (parseBool (goToLower s)).getD false

/-- The fixed-shape record input of `toConnection` (struct path, fields read
by reflection).  `port` models the unsigned integer field; the Go code
converts it with `uint16(...)`, i.e. reduction mod `2^16`. -/
structure StructConn where
  type : String
  host : String
  port : Nat
  user : String
  password : String
  insecure : Bool
  pubKeyPath : String
deriving Repr, DecidableEq

/-- The polymorphic `connection interface{}` argument: a fixed-shape record
or a string-keyed mapping with textual values (iterated entry by entry). -/
inductive ConnInput where
  | struc (sc : StructConn)
  | map (m : List (String × String))
deriving Repr, DecidableEq

/-- One iteration of the mapping path of `toConnection`: dispatch on the key,
parse the textual value, and for `PubKeyPath` attempt the credential load,
swallowing its error (`continue`).  Unknown keys are ignored. -/
def applyEntry (env : Env) (acc : Connection × List Effect)
    (kv : String × String) : Connection × List Effect :=
  let c := acc.1
  if kv.1 = "Type" then ({ c with type := kv.2 }, acc.2)
  else if kv.1 = "Host" then ({ c with host := kv.2 }, acc.2)
  else if kv.1 = "Port" then ({ c with port := parsePort kv.2 }, acc.2)
  else if kv.1 = "User" then ({ c with user := kv.2 }, acc.2)
  else if kv.1 = "Password" then ({ c with password := kv.2 }, acc.2)
  else if kv.1 = "Insecure" then ({ c with insecure := parseInsecure kv.2 }, acc.2)
  else if kv.1 = "PubKeyPath" then
    let c := { c with pubKeyPath := kv.2 }
    match loadPubKey env kv.2 with
    | .ok k => ({ c with pubKey := some (.publicKeys k) }, acc.2 ++ [.loadCred kv.2])
    | .error _ => (c, acc.2 ++ [.loadCred kv.2])
  else (c, acc.2)

/-- `toConnection`, with the credential-load side effects it performs.  The
struct path copies the fields (truncating the port to `uint16`) and attempts
the credential load only for a non-empty key path, discarding its error; the
mapping path folds `applyEntry` over the entries. -/
def toConnectionEff (env : Env) (input : ConnInput) : Connection × List Effect :=
  match input with
  | .struc sc =>
    let c : Connection :=
      { type := sc.type, host := sc.host, port := sc.port % 65536,
        user := sc.user, password := sc.password, insecure := sc.insecure,
        pubKeyPath := sc.pubKeyPath, pubKey := none }
    if sc.pubKeyPath.isEmpty then (c, [])
    else
      match loadPubKey env sc.pubKeyPath with
      | .ok k => ({ c with pubKey := some (.publicKeys k) }, [.loadCred sc.pubKeyPath])
      | .error _ => (c, [.loadCred sc.pubKeyPath])
  | .map m => m.foldl (applyEntry env) (Connection.zero, [])

/-- `toConnection` proper: the canonical descriptor, effects dropped. -/
def toConnection (env : Env) (input : ConnInput) : Connection :=
  (toConnectionEff env input).1

/-- The runner state (`ssh.Runner`).  `hasClient`/`hasSession` model the
non-nilness of the `*ssh.Client` and `*ssh.Session` handles; `started` is the
ssh session's internal one-shot flag (a session can run only one command);
`running` and `exitCode` are the runner's own fields, zero-initialised by
`new(Runner)`. -/
structure Runner where
  script : Script
  command : String
  hasClient : Bool
  hasSession : Bool
  started : Bool
  running : Bool
  exitCode : Int
deriving Repr, DecidableEq

def Runner.ExitCode (r : Runner) : Int := r.exitCode

/-- The auth-method list `New` builds: password authentication only when a
password is set and no credential was loaded, otherwise the loaded credential
(possibly the nil interface value). -/
def selectAuth (c : Connection) : List (Option AuthMethod) :=
  if 0 < c.password.length ∧ c.pubKey = none then [some (.password c.password)]
  else [c.pubKey]

/-- `fmt.Sprintf("%s:%d", c.Host, c.Port)`. -/
def dialAddress (c : Connection) : String := c.host ++ ":" ++ toString c.port

/-- The tail of `New` once the client config is assembled: dial, then open a
session; on success the runner holds both handles, stdin is wired, and the
zero-initialised `exitCode` is `0`. -/
def newDial (env : Env) (s : Script) (address : String) (config : ClientConfig)
    (effs : List Effect) : Except Error Runner × List Effect :=
  match env.dial address config with
  | .error e =>
    (.error { script := s, command := "", exitCode := -1,
              err := ⟨"cannot dial host", e⟩ },
     effs ++ [.dial address config])
  | .ok _ =>
    match env.newSession with
    | .error e =>
      (.error { script := s, command := "", exitCode := -1,
                err := ⟨"cannot open session", e⟩ },
       effs ++ [.dial address config, .openSession])
    | .ok _ =>
      (.ok { script := s, command := s.cmd, hasClient := true,
             hasSession := true, started := false, running := false,
             exitCode := 0 },
       effs ++ [.dial address config, .openSession])

/-- The part of `New` after the connection is resolved: build the stdin
reader, select the auth method and host-key policy for the client config,
then dial and open the session. -/
def newWithConn (env : Env) (s : Script) (c : Connection) (effs : List Effect) :
    Except Error Runner × List Effect :=
  match s.newReader with
  | .error e =>
    (.error { script := s, command := "", exitCode := -1,
              err := ⟨"cannot create stdin reader", e⟩ }, effs)
  | .ok _ =>
    if c.insecure then
      newDial env s (dialAddress c)
        { user := c.user, auth := selectAuth c, hostKey := .insecureIgnore } effs
    else
      match env.homedir with
      | .error e =>
        (.error { script := s, command := "", exitCode := -1,
                  err := ⟨"cannot find home directory of current user", e⟩ },
         effs ++ [.expandHome])
      | .ok home =>
        match env.knownHosts (home ++ "/.ssh/known_hosts") with
        | .error e =>
          (.error { script := s, command := "", exitCode := -1,
                    err := ⟨"cannot access known_hosts file", e⟩ },
           effs ++ [.expandHome, .readKnownHosts (home ++ "/.ssh/known_hosts")])
        | .ok _ =>
          newDial env s (dialAddress c)
            { user := c.user, auth := selectAuth c,
              hostKey := .knownHosts (home ++ "/.ssh/known_hosts") }
            (effs ++ [.expandHome, .readKnownHosts (home ++ "/.ssh/known_hosts")])

/-- `New`: check the script parse error first, resolve the connection, then
proceed with `newWithConn`.  Returns the result together with the ordered
effect trace. -/
def NewRunner (env : Env) (input : ConnInput) (s : Script) :
    Except Error Runner × List Effect :=
  match s.err? with
  | some e =>
    (.error { script := s, command := "", exitCode := -1,
              err := ⟨"script failed to parse", e⟩ }, [])
  | none =>
    let ce := toConnectionEff env input
    newWithConn env s ce.1 (Effect.resolveConn :: ce.2)

/-- Outcomes of the remote execution, as the ssh library reports them:
`start` is the result of the exec request (`session.Start`), `wait` the
result of `session.Wait` once started (`none` = the remote command exited
with status 0). -/
structure ExecEnv where
  start : Option String
  wait : Option GoError
deriving Repr, DecidableEq

/-- `ssh.Session.Start`: fails on an already-started session, otherwise
returns the exec-request outcome and marks the session started. -/
def sessionStart (r : Runner) (env : ExecEnv) : Runner × Option String :=
  if r.started then (r, some "ssh: session already started")
  else
    match env.start with
    | some e => (r, some e)
    | none => ({ r with started := true }, none)

/-- `ssh.Session.Wait`: fails if the session was never started, otherwise
returns the termination outcome. -/
def sessionWait (r : Runner) (env : ExecEnv) : Option GoError :=
  if r.started then env.wait else some (.plain "ssh: session not started")

/-- `Runner.Run`: `session.Run` (= `Start` then `Wait` inside the ssh
library), then derive the exit code: a structured `ssh.ExitError` yields its
status, any other failure yields `-1`, success yields `0`. -/
def runnerRun (r : Runner) (env : ExecEnv) : Runner × Option Error :=
  let st := sessionStart r env
  let r1 := st.1
  let runErr : Option GoError :=
    match st.2 with
    | some e => some (.plain e)
    | none => sessionWait r1 env
  match runErr with
  | none => ({ r1 with exitCode := 0 }, none)
  | some (.exitError n) =>
    ({ r1 with exitCode := (n : Int) },
     some { script := r.script, command := r.command, exitCode := (n : Int),
            err := ⟨"runner failed", .exitError n⟩ })
  | some (.plain m) =>
    ({ r1 with exitCode := -1 },
     some { script := r.script, command := r.command, exitCode := -1,
            err := ⟨"cannot execute runner", .plain m⟩ })

/-- `Runner.Start`: on failure record exit code `-1`; on success mark the
runner running. -/
def runnerStart (r : Runner) (env : ExecEnv) : Runner × Option Error :=
  let st := sessionStart r env
  match st.2 with
  | some e =>
    ({ st.1 with exitCode := -1 },
     some { script := r.script, command := r.command, exitCode := -1,
            err := ⟨"cannot start runner", .plain e⟩ })
  | none => ({ st.1 with running := true }, none)

/-- `Runner.Wait`: clear `running`, then derive the exit code exactly as
`Run` does (`ssh.ExitError` status, else `-1`, success `0`). -/
def runnerWait (r : Runner) (env : ExecEnv) : Runner × Option Error :=
  let r1 := { r with running := false }
  match sessionWait r env with
  | none => ({ r1 with exitCode := 0 }, none)
  | some (.exitError n) =>
    ({ r1 with exitCode := (n : Int) },
     some { script := r.script, command := r.command, exitCode := (n : Int),
            err := ⟨"runner failed", .exitError n⟩ })
  | some (.plain m) =>
    ({ r1 with exitCode := -1 },
     some { script := r.script, command := r.command, exitCode := -1,
            err := ⟨"runner failed", .plain m⟩ })

/-- Teardown steps `Close` performs, in order. -/
inductive CloseEffect where
  | signalTERM
  | closeSession
  | closeClient
deriving Repr, DecidableEq

/-- `Runner.Close`: best-effort teardown.  If still running, signal SIGTERM
(error discarded); close the session handle if present (error discarded);
close the client handle if present.  The runner fields are not mutated and
the returned error is always nil. -/
def runnerClose (r : Runner) : Runner × Option Error × List CloseEffect :=
  (r, none,
   (if r.running then [CloseEffect.signalTERM] else []) ++
   (if r.hasSession then [CloseEffect.closeSession] else []) ++
   (if r.hasClient then [CloseEffect.closeClient] else []))

/-- `n` successive calls of `Close` on the same runner, collecting each
call's returned error. -/
def closeTimes : Runner → Nat → List (Option Error)
  | _, 0 => []
  | r, n + 1 =>
    let out := runnerClose r
    out.2.1 :: closeTimes out.1 n

/-! ## Sample values used by the witnesses -/

/-- A script whose template parsed fine and whose reader builds. -/
def okScript : Script :=
  { name := "greet", err? := none, cmd := "bash -c greet", newReader := .ok () }

/-- A script whose template failed to parse. -/
def badScript : Script :=
  { name := "broken", err? := some (.plain "template: bad"), cmd := "",
    newReader := .ok () }

/-- A runner as `New` returns it on success. -/
def sampleRunner : Runner :=
  { script := okScript, command := okScript.cmd, hasClient := true,
    hasSession := true, started := false, running := false, exitCode := 0 }

/-- An environment in which every external call succeeds. -/
def okEnv : Env :=
  { loadKey := fun _ => .ok "parsed-key", homedir := .ok "/home/u",
    knownHosts := fun _ => .ok (), dial := fun _ _ => .ok (),
    newSession := .ok () }

/-- Like `okEnv` but every key file fails to load. -/
def badKeyEnv : Env :=
  { okEnv with loadKey := fun _ => .error (.plain "ssh: no key found") }

/-- Like `okEnv` but the home directory cannot be resolved. -/
def noHomeEnv : Env :=
  { okEnv with homedir := .error (.plain "$HOME is not defined") }

/-- A well-formed struct connection input. -/
def sampleStruct : StructConn :=
  { type := "ssh", host := "h1", port := 22, user := "root",
    password := "pw", insecure := true, pubKeyPath := "" }

/-! ## Theorems -/

/-- C1.  On a Connected session (`started = false`), `Run` with a cleanly
exiting remote command returns no error and records exit code `0`; a
structured `ssh.ExitError` with status `n` yields a non-nil `Error` whose
`ExitCode` is `n` and records `n` on the runner; any other failure records
`-1`.  `Wait` (on a started session) behaves the same way. -/
theorem run_wait_exit_code_derivation (r : Runner) (env : ExecEnv)
    (n : Nat) (m e : String) :
    (r.started = false →
      ((env.start = none → env.wait = none →
          runnerRun r env = ({ r with started := true, exitCode := 0 }, none)) ∧
       (env.start = none → env.wait = some (.exitError n) →
          runnerRun r env =
            ({ r with started := true, exitCode := (n : Int) },
             some { script := r.script, command := r.command,
                    exitCode := (n : Int),
                    err := ⟨"runner failed", .exitError n⟩ })) ∧
       (env.start = none → env.wait = some (.plain m) →
          (runnerRun r env).1.exitCode = -1 ∧
          (runnerRun r env).2.map Error.ExitCode = some (-1)) ∧
       (env.start = some e →
          (runnerRun r env).1.exitCode = -1 ∧
          (runnerRun r env).2.map Error.ExitCode = some (-1)))) ∧
    (r.started = true →
      ((env.wait = none →
          runnerWait r env = ({ r with running := false, exitCode := 0 }, none)) ∧
       (env.wait = some (.exitError n) →
          runnerWait r env =
            ({ r with running := false, exitCode := (n : Int) },
             some { script := r.script, command := r.command,
                    exitCode := (n : Int),
                    err := ⟨"runner failed", .exitError n⟩ })) ∧
       (env.wait = some (.plain m) →
          (runnerWait r env).1.exitCode = -1 ∧
          (runnerWait r env).2.map Error.ExitCode = some (-1)))) := by
  obtain ⟨st, wt⟩ := env
  refine ⟨fun hs => ⟨?_, ?_, ?_, ?_⟩, fun hs => ⟨?_, ?_, ?_⟩⟩ <;>
    intros <;> subst_eqs <;>
    simp [runnerRun, runnerWait, sessionStart, sessionWait, Error.ExitCode, hs]

/-- Witness for C1 at a concrete session and environment: a remote command
exiting with status 7 yields exit code 7 on runner and error. -/
theorem run_wait_exit_code_derivation_witness :
    runnerRun sampleRunner ⟨none, some (.exitError 7)⟩ =
      ({ sampleRunner with started := true, exitCode := 7 },
       some { script := sampleRunner.script, command := sampleRunner.command,
              exitCode := 7,
              err := ⟨"runner failed", .exitError 7⟩ }) :=
  ((run_wait_exit_code_derivation sampleRunner ⟨none, some (.exitError 7)⟩
      7 "" "").1 rfl).2.1 rfl rfl

/-- C3.  A script with a non-nil parse error makes `New` fail immediately:
no effect at all is performed (no connection resolution, no credential load,
no network activity), and the returned `Error` carries the script, exit code
`-1`, and the parse failure as the wrapped cause. -/
theorem new_parse_error_fails_immediately (env : Env) (input : ConnInput)
    (s : Script) (e : GoError) (h : s.err? = some e) :
    NewRunner env input s =
      (.error { script := s, command := "", exitCode := -1,
                err := ⟨"script failed to parse", e⟩ }, []) := by
  simp [NewRunner, h]

/-- Witness for C3: the concrete broken script fails without any effect. -/
theorem new_parse_error_fails_immediately_witness :
    NewRunner okEnv (.struc sampleStruct) badScript =
      (.error { script := badScript, command := "", exitCode := -1,
                err := ⟨"script failed to parse", .plain "template: bad"⟩ },
       []) :=
  new_parse_error_fails_immediately okEnv (.struc sampleStruct) badScript
    (.plain "template: bad") rfl

/-- C4.  `Close` never fails: any number of successive calls each return a
nil error, the runner is not mutated, and a single call performs, in order,
the best-effort SIGTERM (only when still running), then closes the command
channel, then the transport. -/
theorem close_idempotent_best_effort (r : Runner) (n : Nat)
    (hs : r.hasSession = true) (hc : r.hasClient = true) :
    closeTimes r n = List.replicate n none ∧
    (runnerClose r).1 = r ∧
    (runnerClose r).2.1 = none ∧
    (r.running = true →
      (runnerClose r).2.2 =
        [.signalTERM, .closeSession, .closeClient]) ∧
    (r.running = false →
      (runnerClose r).2.2 = [.closeSession, .closeClient]) := by
  refine ⟨?_, rfl, rfl, ?_, ?_⟩
  · induction n with
    | zero => simp [closeTimes]
    | succ k ih => simpa [closeTimes, runnerClose, List.replicate] using ih
  · intro hr; simp [runnerClose, hr, hs, hc]
  · intro hr; simp [runnerClose, hr, hs, hc]

/-- Witness for C4: closing a running runner twice returns nil both times
and performs signal, channel close, transport close in order. -/
theorem close_idempotent_best_effort_witness :
    closeTimes { sampleRunner with running := true } 2 =
        List.replicate 2 none ∧
    (runnerClose { sampleRunner with running := true }).2.2 =
        [.signalTERM, .closeSession, .closeClient] := by
  have h := close_idempotent_best_effort
    { sampleRunner with running := true } 2 rfl rfl
  exact ⟨h.1, h.2.2.2.1 rfl⟩

/-! ## Trace lemmas -/

/-- Every effect of `newDial` is either inherited, the dial itself, or the
session opening. -/
lemma newDial_effects_mem (env : Env) (s : Script) (a : String)
    (cfg : ClientConfig) (effs : List Effect) (e : Effect)
    (h : e ∈ (newDial env s a cfg effs).2) :
    e ∈ effs ∨ e = .dial a cfg ∨ e = .openSession := by
  unfold newDial at h
  cases hd : env.dial a cfg <;> rw [hd] at h
  · simp at h; tauto
  · cases hn : env.newSession <;> rw [hn] at h <;> simp at h <;> tauto

/-- One `applyEntry` step only adds credential-load effects. -/
lemma applyEntry_effects_mem (env : Env) (acc : Connection × List Effect)
    (kv : String × String) (e : Effect)
    (h : e ∈ (applyEntry env acc kv).2) :
    e ∈ acc.2 ∨ ∃ p, e = Effect.loadCred p := by
  rcases kv with ⟨k, v⟩
  unfold applyEntry at h
  dsimp only at h
  repeat' split at h
  all_goals first
    | exact .inl h
    | (simp only [List.mem_append, List.mem_singleton] at h
       rcases h with h | h
       · exact .inl h
       · exact .inr ⟨v, h⟩)

/-- The connection resolver performs only credential-load effects. -/
lemma toConnectionEff_effects_mem (env : Env) (input : ConnInput)
    (e : Effect) (h : e ∈ (toConnectionEff env input).2) :
    ∃ p, e = Effect.loadCred p := by
  cases input with
  | struc sc =>
    simp only [toConnectionEff] at h
    split at h
    · simp at h
    · split at h <;> simp at h <;> exact ⟨sc.pubKeyPath, h⟩
  | map m =>
    simp only [toConnectionEff] at h
    have aux : ∀ (l : List (String × String)) (acc : Connection × List Effect),
        (∀ e2 ∈ acc.2, ∃ p, e2 = Effect.loadCred p) →
        ∀ e2 ∈ (l.foldl (applyEntry env) acc).2, ∃ p, e2 = Effect.loadCred p := by
      intro l
      induction l with
      | nil => intro acc hacc e2 he2; exact hacc e2 he2
      | cons kv tl ih =>
        intro acc hacc e2 he2
        refine ih (applyEntry env acc kv) ?_ e2 he2
        intro e3 he3
        rcases applyEntry_effects_mem env acc kv e3 he3 with h3 | h3
        · exact hacc e3 h3
        · exact h3
    exact aux m (Connection.zero, []) (by simp) e h

/-- Inversion for dial effects in the trace of `New`: a dial effect always
targets the address of the resolved connection, carries its user and the
auth list of `selectAuth`, and its host-key policy follows the `insecure`
flag (known-hosts path derived from the resolved home directory
otherwise). -/
lemma NewRunner_dial_inv (env : Env) (input : ConnInput) (s : Script)
    (a : String) (cfg : ClientConfig)
    (h : Effect.dial a cfg ∈ (NewRunner env input s).2) :
    a = dialAddress (toConnection env input) ∧
    cfg.user = (toConnection env input).user ∧
    cfg.auth = selectAuth (toConnection env input) ∧
    ((toConnection env input).insecure = true →
        cfg.hostKey = .insecureIgnore) ∧
    ((toConnection env input).insecure = false →
        ∃ home, env.homedir = .ok home ∧
          cfg.hostKey = .knownHosts (home ++ "/.ssh/known_hosts")) := by
  have hno : Effect.dial a cfg ∉ (toConnectionEff env input).2 := by
    intro hmem
    rcases toConnectionEff_effects_mem env input _ hmem with ⟨p, hp⟩
    exact Effect.noConfusion hp
  unfold NewRunner at h
  cases he : s.err? <;> rw [he] at h
  case some e => simp at h
  case none =>
    dsimp only at h
    unfold newWithConn at h
    cases hr : s.newReader <;> rw [hr] at h
    case error e =>
      rw [List.mem_cons] at h
      rcases h with h | h
      · exact Effect.noConfusion h
      · exact absurd h hno
    case ok u =>
      dsimp only at h
      by_cases hins : (toConnectionEff env input).1.insecure = true
      · rw [if_pos hins] at h
        rcases newDial_effects_mem env s _ _ _ _ h with h | h | h
        · rw [List.mem_cons] at h
          rcases h with h | h
          · exact Effect.noConfusion h
          · exact absurd h hno
        · rcases Effect.dial.inj h with ⟨ha, hcfg⟩
          subst ha; subst hcfg
          refine ⟨rfl, rfl, rfl, fun _ => rfl, fun hf => ?_⟩
          exact Bool.noConfusion (hins.symm.trans hf)
        · exact Effect.noConfusion h
      · rw [if_neg hins] at h
        rw [Bool.not_eq_true] at hins
        cases hh : env.homedir with
        | error e =>
          rw [hh] at h
          rw [List.mem_append, List.mem_cons, List.mem_singleton] at h
          rcases h with (h | h) | h
          · exact Effect.noConfusion h
          · exact absurd h hno
          · exact Effect.noConfusion h
        | ok home =>
          rw [hh] at h
          dsimp only at h
          cases hk : env.knownHosts (home ++ "/.ssh/known_hosts") with
          | error e =>
            rw [hk] at h
            rw [List.mem_append, List.mem_cons, List.mem_cons,
                List.mem_singleton] at h
            rcases h with (h | h) | h | h
            · exact Effect.noConfusion h
            · exact absurd h hno
            · exact Effect.noConfusion h
            · exact Effect.noConfusion h
          | ok v =>
            rw [hk] at h
            rcases newDial_effects_mem env s _ _ _ _ h with h | h | h
            · rw [List.mem_append, List.mem_cons, List.mem_cons,
                  List.mem_singleton] at h
              rcases h with (h | h) | h | h
              · exact Effect.noConfusion h
              · exact absurd h hno
              · exact Effect.noConfusion h
              · exact Effect.noConfusion h
            · rcases Effect.dial.inj h with ⟨ha, hcfg⟩
              subst ha; subst hcfg
              refine ⟨rfl, rfl, rfl, fun hf => ?_, fun _ => ⟨home, rfl, rfl⟩⟩
              exact Bool.noConfusion (hf.symm.trans hins)
            · exact Effect.noConfusion h

/-- When the resolved connection is insecure, the trace of `New` never
touches the home directory or the known-hosts trust store. -/
lemma NewRunner_insecure_no_truststore (env : Env) (input : ConnInput)
    (s : Script) (hins : (toConnection env input).insecure = true) :
    Effect.expandHome ∉ (NewRunner env input s).2 ∧
    ∀ f, Effect.readKnownHosts f ∉ (NewRunner env input s).2 := by
  have key : ∀ e2 : Effect, e2 ∈ (NewRunner env input s).2 →
      e2 = .resolveConn ∨ (∃ p, e2 = .loadCred p) ∨
      (∃ a cfg, e2 = .dial a cfg) ∨ e2 = .openSession := by
    intro e2 h
    unfold NewRunner at h
    cases he : s.err? <;> rw [he] at h
    case some e => simp at h
    case none =>
      dsimp only at h
      unfold newWithConn at h
      cases hr : s.newReader <;> rw [hr] at h
      case error e =>
        rw [List.mem_cons] at h
        rcases h with h | h
        · exact .inl h
        · exact .inr (.inl (toConnectionEff_effects_mem env input _ h))
      case ok u =>
        dsimp only at h
        rw [if_pos (show (toConnectionEff env input).1.insecure = true
              from hins)] at h
        rcases newDial_effects_mem env s _ _ _ _ h with h | h | h
        · rw [List.mem_cons] at h
          rcases h with h | h
          · exact .inl h
          · exact .inr (.inl (toConnectionEff_effects_mem env input _ h))
        · exact .inr (.inr (.inl ⟨_, _, h⟩))
        · exact .inr (.inr (.inr h))
  constructor
  · intro h
    rcases key _ h with h2 | ⟨p, h2⟩ | ⟨a, cfg, h2⟩ | h2 <;>
      exact Effect.noConfusion h2
  · intro f h
    rcases key _ h with h2 | ⟨p, h2⟩ | ⟨a, cfg, h2⟩ | h2 <;>
      exact Effect.noConfusion h2

/-- `newDial` keeps every effect it inherits. -/
lemma newDial_effects_mono (env : Env) (s : Script) (a : String)
    (cfg : ClientConfig) (effs : List Effect) (e : Effect) (h : e ∈ effs) :
    e ∈ (newDial env s a cfg effs).2 := by
  unfold newDial
  cases env.dial a cfg
  · simpa using Or.inl h
  · cases env.newSession <;> simpa using Or.inl h

/-- C2.  Auth-method selection: password authentication is used exactly when
a password is set and no credential was loaded; whenever a credential is
loaded it is used (any password is ignored); in all remaining cases the
(possibly nil) credential slot is used.  Every dial performed by `New` uses
exactly this selection for the resolved connection. -/
theorem auth_method_precedence (c : Connection) :
    ((0 < c.password.length ∧ c.pubKey = none) →
        selectAuth c = [some (.password c.password)]) ∧
    (∀ k, c.pubKey = some k → selectAuth c = [some k]) ∧
    (¬(0 < c.password.length ∧ c.pubKey = none) →
        selectAuth c = [c.pubKey]) ∧
    (∀ env input s a cfg, Effect.dial a cfg ∈ (NewRunner env input s).2 →
        cfg.auth = selectAuth (toConnection env input)) := by
  refine ⟨fun h => ?_, fun k hk => ?_, fun h => ?_, ?_⟩
  · simp [selectAuth, h.1, h.2]
  · simp [selectAuth, hk]
  · simp [selectAuth, h]
  · intro env input s a cfg h
    exact (NewRunner_dial_inv env input s a cfg h).2.2.1

/-- Witness for C2: with both a password and a loaded key credential, the
credential wins and the password is ignored. -/
theorem auth_method_precedence_witness :
    selectAuth { Connection.zero with
                 password := "pw",
                 pubKey := some (.publicKeys "parsed-key") } =
      [some (.publicKeys "parsed-key")] :=
  (auth_method_precedence _).2.1 _ rfl

/-- C6.  Host-key policy: with `insecure = true` every dial skips host-key
verification and the trace never touches the home directory or the
known-hosts file; with `insecure = false` (on a script that parses and whose
reader builds), `New` resolves `~/.ssh/known_hosts` and fails with exit code
`-1` if the home directory cannot be resolved or the known-hosts file cannot
be accessed. -/
theorem hostkey_verification_policy (env : Env) (input : ConnInput)
    (s : Script) :
    ((toConnection env input).insecure = true →
        (∀ a cfg, Effect.dial a cfg ∈ (NewRunner env input s).2 →
            cfg.hostKey = .insecureIgnore) ∧
        Effect.expandHome ∉ (NewRunner env input s).2 ∧
        ∀ f, Effect.readKnownHosts f ∉ (NewRunner env input s).2) ∧
    ((toConnection env input).insecure = false → s.err? = none →
        s.newReader = .ok () →
        Effect.expandHome ∈ (NewRunner env input s).2 ∧
        (∀ e, env.homedir = .error e →
            (NewRunner env input s).1 =
              .error { script := s, command := "", exitCode := -1,
                       err := ⟨"cannot find home directory of current user", e⟩ }) ∧
        (∀ home e, env.homedir = .ok home →
            env.knownHosts (home ++ "/.ssh/known_hosts") = .error e →
            (NewRunner env input s).1 =
              .error { script := s, command := "", exitCode := -1,
                       err := ⟨"cannot access known_hosts file", e⟩ })) := by
  constructor
  · intro hins
    exact ⟨fun a cfg h => (NewRunner_dial_inv env input s a cfg h).2.2.2.1 hins,
      (NewRunner_insecure_no_truststore env input s hins).1,
      (NewRunner_insecure_no_truststore env input s hins).2⟩
  · intro hins he hr
    have hins' : (toConnectionEff env input).1.insecure = false := hins
    refine ⟨?_, ?_, ?_⟩
    · unfold NewRunner
      rw [he]
      dsimp only
      unfold newWithConn
      rw [hr]
      dsimp only
      rw [hins']
      simp only [Bool.false_eq_true, if_false]
      cases hh : env.homedir with
      | error e0 => simp
      | ok home =>
        dsimp only
        cases hk : env.knownHosts (home ++ "/.ssh/known_hosts") with
        | error e0 => simp
        | ok v =>
          dsimp only
          refine newDial_effects_mono env s _ _ _ _ ?_
          simp
    · intro e he2
      unfold NewRunner
      rw [he]
      dsimp only
      unfold newWithConn
      rw [hr]
      dsimp only
      rw [hins']
      simp only [Bool.false_eq_true, if_false]
      rw [he2]
    · intro home e hok hk
      unfold NewRunner
      rw [he]
      dsimp only
      unfold newWithConn
      rw [hr]
      dsimp only
      rw [hins']
      simp only [Bool.false_eq_true, if_false]
      rw [hok]
      dsimp only
      rw [hk]

/-- Witness for C6: an insecure descriptor dials without touching the trust
store, and a secure one fails with exit code `-1` when the home directory
cannot be resolved. -/
theorem hostkey_verification_policy_witness :
    (Effect.expandHome ∉ (NewRunner okEnv (.struc sampleStruct) okScript).2) ∧
    (NewRunner noHomeEnv (.struc { sampleStruct with insecure := false })
        okScript).1 =
      .error { script := okScript, command := "", exitCode := -1,
               err := ⟨"cannot find home directory of current user",
                      .plain "$HOME is not defined"⟩ } := by
  constructor
  · exact ((hostkey_verification_policy okEnv (.struc sampleStruct)
      okScript).1 rfl).2.1
  · exact ((hostkey_verification_policy noHomeEnv
      (.struc { sampleStruct with insecure := false }) okScript).2 rfl rfl
      rfl).2.1 _ rfl

/-- C5.  The resolver is total and best-effort: a malformed port string
resolves to port `0`, a malformed boolean string resolves to
`insecure = false`, and a failing credential load is swallowed (the key path
is still recorded, no credential is set, and a canonical descriptor is still
returned to the caller). -/
theorem resolver_swallows_bad_fields (env : Env) (v w p : String)
    (e : GoError) (hv : parseUint16 v = none)
    (hw : parseBool (goToLower w) = none)
    (hp : loadPubKey env p = .error e) :
    toConnection env (.map [("Port", v), ("Insecure", w), ("PubKeyPath", p)]) =
      { type := "", host := "", port := 0, user := "", password := "",
        pubKeyPath := p, pubKey := none, insecure := false } := by
  simp [toConnection, toConnectionEff, applyEntry, parsePort, parseInsecure,
        Connection.zero, hv, hw, hp]

/-- Witness for C5: port "abc", insecure "yes" and an unloadable key path
still resolve, with zero-value port and insecure fields. -/
theorem resolver_swallows_bad_fields_witness :
    toConnection badKeyEnv
        (.map [("Port", "abc"), ("Insecure", "yes"), ("PubKeyPath", "/k")]) =
      { type := "", host := "", port := 0, user := "", password := "",
        pubKeyPath := "/k", pubKey := none, insecure := false } :=
  resolver_swallows_bad_fields badKeyEnv "abc" "yes" "/k"
    (.plain "ssh: no key found") (by decide) (by decide) rfl

/-- The structured part of an `Error`: everything except the human-readable
context prefix of the wrapping message. -/
def errCore (e : Error) : Script × String × Int × GoError :=
  (e.script, e.command, e.exitCode, e.err.cause)

/-- C8.  On a Connected session (not yet started, not marked running),
`Run` and `Start`+`Wait` reach the same terminal runner state, return errors
of the same presence and exit code, and — whenever the exec request
succeeds — `Start` itself reports no error and the final errors agree on
every structured component (script, command, exit code, wrapped cause). -/
theorem run_equals_start_wait (r : Runner) (env : ExecEnv)
    (hstarted : r.started = false) (hrunning : r.running = false) :
    (runnerRun r env).1 = (runnerWait (runnerStart r env).1 env).1 ∧
    (runnerRun r env).2.isSome =
      (runnerWait (runnerStart r env).1 env).2.isSome ∧
    (runnerRun r env).2.map Error.ExitCode =
      (runnerWait (runnerStart r env).1 env).2.map Error.ExitCode ∧
    (env.start = none →
      (runnerStart r env).2 = none ∧
      (runnerRun r env).2.map errCore =
        (runnerWait (runnerStart r env).1 env).2.map errCore) := by
  obtain ⟨st, wt⟩ := env
  cases st with
  | some e =>
    simp [runnerRun, runnerWait, runnerStart, sessionStart, sessionWait,
          Error.ExitCode, hstarted, hrunning]
  | none =>
    cases wt with
    | none =>
      simp [runnerRun, runnerWait, runnerStart, sessionStart, sessionWait,
            hstarted, hrunning]
    | some g =>
      cases g <;>
        simp [runnerRun, runnerWait, runnerStart, sessionStart, sessionWait,
              errCore, Error.ExitCode, hstarted, hrunning]

/-- Witness for C8 on a concrete session and environment (a transport
failure during the wait). -/
theorem run_equals_start_wait_witness :
    (runnerRun sampleRunner ⟨none, some (.plain "connection reset")⟩).1 =
      (runnerWait
        (runnerStart sampleRunner ⟨none, some (.plain "connection reset")⟩).1
        ⟨none, some (.plain "connection reset")⟩).1 ∧
    (runnerRun sampleRunner ⟨none, some (.plain "connection reset")⟩).2.map
        errCore =
      (runnerWait
        (runnerStart sampleRunner ⟨none, some (.plain "connection reset")⟩).1
        ⟨none, some (.plain "connection reset")⟩).2.map errCore :=
  ⟨(run_equals_start_wait sampleRunner ⟨none, some (.plain "connection reset")⟩
      rfl rfl).1,
   ((run_equals_start_wait sampleRunner ⟨none, some (.plain "connection reset")⟩
      rfl rfl).2.2.2 rfl).2⟩

/-- A successful `newDial` yields exactly the freshly-initialised runner. -/
lemma newDial_ok_inv (env : Env) (s : Script) (a : String)
    (cfg : ClientConfig) (effs : List Effect) (r : Runner)
    (tr : List Effect) (h : newDial env s a cfg effs = (.ok r, tr)) :
    r = { script := s, command := s.cmd, hasClient := true,
          hasSession := true, started := false, running := false,
          exitCode := 0 } := by
  unfold newDial at h
  cases hd : env.dial a cfg <;> rw [hd] at h
  case error e => simp [Prod.mk.injEq] at h
  case ok u =>
    cases hn : env.newSession <;> rw [hn] at h
    case error e => simp [Prod.mk.injEq] at h
    case ok v =>
      rw [Prod.mk.injEq] at h
      exact (Except.ok.inj h.1).symm

/-- A successful `New` yields exactly the freshly-initialised runner. -/
lemma NewRunner_ok_inv (env : Env) (input : ConnInput) (s : Script)
    (r : Runner) (tr : List Effect)
    (h : NewRunner env input s = (.ok r, tr)) :
    r = { script := s, command := s.cmd, hasClient := true,
          hasSession := true, started := false, running := false,
          exitCode := 0 } := by
  unfold NewRunner at h
  cases he : s.err? <;> rw [he] at h
  case some e => simp [Prod.mk.injEq] at h
  case none =>
    dsimp only at h
    unfold newWithConn at h
    cases hr : s.newReader <;> rw [hr] at h
    case error e => simp [Prod.mk.injEq] at h
    case ok u =>
      dsimp only at h
      by_cases hins : (toConnectionEff env input).1.insecure = true
      · rw [if_pos hins] at h
        exact newDial_ok_inv _ _ _ _ _ _ _ h
      · rw [if_neg hins] at h
        cases hh : env.homedir with
        | error e0 => rw [hh] at h; simp [Prod.mk.injEq] at h
        | ok home =>
          rw [hh] at h
          dsimp only at h
          cases hk : env.knownHosts (home ++ "/.ssh/known_hosts") with
          | error e0 => rw [hk] at h; simp [Prod.mk.injEq] at h
          | ok v =>
            rw [hk] at h
            exact newDial_ok_inv _ _ _ _ _ _ _ h

/-- C9.  A runner freshly returned by a successful `New` reports exit code
`0` before any operation — the same value a successful run records — so exit
code alone cannot distinguish "never ran" from "ran and succeeded". -/
theorem fresh_runner_exit_code_zero (env : Env) (input : ConnInput)
    (s : Script) (r : Runner) (tr : List Effect)
    (h : NewRunner env input s = (.ok r, tr)) :
    r.ExitCode = 0 ∧ r.started = false ∧ r.running = false ∧
    (runnerRun r { start := none, wait := none }).1.ExitCode = 0 := by
  have hr := NewRunner_ok_inv env input s r tr h
  subst hr
  exact ⟨rfl, rfl, rfl, rfl⟩

/-- Witness for C9 at a concrete successful construction. -/
theorem fresh_runner_exit_code_zero_witness :
    sampleRunner.ExitCode = 0 ∧ sampleRunner.started = false ∧
    sampleRunner.running = false ∧
    (runnerRun sampleRunner { start := none, wait := none }).1.ExitCode = 0 :=
  fresh_runner_exit_code_zero okEnv (.struc sampleStruct) okScript
    sampleRunner
    [Effect.resolveConn,
     Effect.dial "h1:22"
       { user := "root", auth := [some (.password "pw")],
         hostKey := .insecureIgnore },
     Effect.openSession]
    (by rfl)

/-- A successfully parsed port fits in `uint16`. -/
lemma parseUint16_lt (s : String) (n : Nat) (h : parseUint16 s = some n) :
    n < 65536 := by
  unfold parseUint16 parseUint16Core at h
  split at h
  · exact absurd h (by simp)
  · split at h
    · dsimp only at h
      split at h
      · injection h with h2
        subst h2
        assumption
      · exact absurd h (by simp)
    · exact absurd h (by simp)

/-- C7.  Supplying the connection once as a fixed-shape record and once as a
string-keyed mapping with equivalent field values (the port as a numeral
string parsing to the same number, the insecure flag as a boolean string
parsing to the same flag) yields identical canonical descriptors. -/
theorem record_mapping_equivalence (env : Env)
    (t h u pw kp ps bs : String) (port : Nat) (ins : Bool)
    (hp : parseUint16 ps = some port)
    (hb : parseBool (goToLower bs) = some ins) :
    toConnection env
        (.struc { type := t, host := h, port := port, user := u,
                  password := pw, insecure := ins, pubKeyPath := kp }) =
      toConnection env
        (.map [("Type", t), ("Host", h), ("Port", ps), ("User", u),
               ("Password", pw), ("Insecure", bs), ("PubKeyPath", kp)]) := by
  have hlt : port % 65536 = port :=
    Nat.mod_eq_of_lt (parseUint16_lt ps port hp)
  by_cases hkp : kp.isEmpty
  · simp [toConnection, toConnectionEff, applyEntry, parsePort, parseInsecure,
          loadPubKey, Connection.zero, hp, hb, hlt, hkp]
  · cases hl : env.loadKey kp with
    | ok k =>
      simp [toConnection, toConnectionEff, applyEntry, parsePort,
            parseInsecure, loadPubKey, Connection.zero, hp, hb, hlt, hkp, hl]
    | error e =>
      simp [toConnection, toConnectionEff, applyEntry, parsePort,
            parseInsecure, loadPubKey, Connection.zero, hp, hb, hlt, hkp, hl]

/-- Witness for C7 on concrete equivalent record and mapping inputs. -/
theorem record_mapping_equivalence_witness :
    toConnection okEnv
        (.struc { type := "ssh", host := "h1", port := 22, user := "root",
                  password := "pw", insecure := true, pubKeyPath := "" }) =
      toConnection okEnv
        (.map [("Type", "ssh"), ("Host", "h1"), ("Port", "22"),
               ("User", "root"), ("Password", "pw"), ("Insecure", "TRUE"),
               ("PubKeyPath", "")]) :=
  record_mapping_equivalence okEnv "ssh" "h1" "root" "pw" "" "22" "TRUE"
    22 true (by decide) (by decide)

/-- Change only the `Type` value of a connection input: the record field, or
the value of every `"Type"` entry of the mapping. -/
def setType : ConnInput → String → ConnInput
  | .struc sc, t => .struc { sc with type := t }
  | .map m, t => .map (m.map fun kv => if kv.1 = "Type" then ("Type", t) else kv)

/-- `applyEntry` on a non-`Type` entry commutes with overriding the `type`
field of the descriptor. -/
lemma applyEntry_type_override (env : Env) (c : Connection)
    (effs : List Effect) (kv : String × String) (t0 : String)
    (h1 : kv.1 ≠ "Type") :
    applyEntry env ({ c with type := t0 }, effs) kv =
      ({ (applyEntry env (c, effs) kv).1 with type := t0 },
       (applyEntry env (c, effs) kv).2) := by
  rcases c with ⟨ty, ho, po, us, pa, pk, pub, insec⟩
  rcases kv with ⟨k, v⟩
  simp only at h1
  by_cases h2 : k = "Host"
  · subst h2; simp [applyEntry]
  by_cases h3 : k = "Port"
  · subst h3; simp [applyEntry]
  by_cases h4 : k = "User"
  · subst h4; simp [applyEntry]
  by_cases h5 : k = "Password"
  · subst h5; simp [applyEntry]
  by_cases h6 : k = "Insecure"
  · subst h6; simp [applyEntry]
  by_cases h7 : k = "PubKeyPath"
  · subst h7
    cases hl : loadPubKey env v <;>
      simp [applyEntry, h1, h2, h3, h4, h5, h6, hl]
  · simp [applyEntry, h1, h2, h3, h4, h5, h6, h7]

/-- Folding the type-substituted entries from a type-overridden start yields
the type-overridden fold result (for some final type value). -/
lemma foldl_applyEntry_setType (env : Env) (t : String) :
    ∀ (m : List (String × String)) (c : Connection) (effs : List Effect)
      (t0 : String),
    ∃ t2,
      List.foldl (applyEntry env) ({ c with type := t0 }, effs)
          (m.map fun kv => if kv.1 = "Type" then ("Type", t) else kv) =
        ({ (List.foldl (applyEntry env) (c, effs) m).1 with type := t2 },
         (List.foldl (applyEntry env) (c, effs) m).2) := by
  intro m
  induction m with
  | nil => intro c effs t0; exact ⟨t0, rfl⟩
  | cons kv tl ih =>
    intro c effs t0
    rw [List.map_cons, List.foldl_cons, List.foldl_cons]
    by_cases hk : kv.1 = "Type"
    · obtain ⟨t2, h2⟩ := ih { c with type := kv.2 } effs t
      refine ⟨t2, ?_⟩
      rw [show applyEntry env ({ c with type := t0 }, effs)
            (if kv.1 = "Type" then ("Type", t) else kv) =
          ({ c with type := t }, effs) by
            rcases c with ⟨ty, ho, po, us, pa, pk, pub, insec⟩
            rw [if_pos hk]; simp [applyEntry],
          show applyEntry env (c, effs) kv = ({ c with type := kv.2 }, effs) by
            rcases kv with ⟨k, v⟩
            rcases c with ⟨ty, ho, po, us, pa, pk, pub, insec⟩
            simp only at hk
            subst hk
            simp [applyEntry]]
      exact h2
    · rw [if_neg hk, applyEntry_type_override env c effs kv t0 hk]
      obtain ⟨t2, h2⟩ :=
        ih (applyEntry env (c, effs) kv).1 (applyEntry env (c, effs) kv).2 t0
      exact ⟨t2, h2⟩

/-- Resolving a connection input that differs only in its `Type` value
yields the same descriptor up to the `type` field, with identical
effects. -/
lemma toConnectionEff_setType (env : Env) (input : ConnInput) (t : String) :
    ∃ t2,
      toConnectionEff env (setType input t) =
        ({ (toConnectionEff env input).1 with type := t2 },
         (toConnectionEff env input).2) := by
  cases input with
  | struc sc =>
    rcases sc with ⟨ty, ho, po, us, pa, insec, pk⟩
    refine ⟨t, ?_⟩
    unfold setType toConnectionEff
    dsimp only
    by_cases hkp : pk.isEmpty
    · simp [hkp]
    · cases hl : loadPubKey env pk <;> simp [hkp, hl]
  | map m =>
    obtain ⟨t2, h2⟩ := foldl_applyEntry_setType env t m Connection.zero [] ""
    exact ⟨t2, h2⟩

/-- `newWithConn` never consults the `type` field of the descriptor. -/
lemma newWithConn_type_irrel (env : Env) (s : Script) (c : Connection)
    (t : String) (effs : List Effect) :
    newWithConn env s { c with type := t } effs = newWithConn env s c effs := by
  rcases c with ⟨ty, ho, po, us, pa, pk, pub, insec⟩
  rfl

/-- C10.  The `Type` field of the connection input is never consulted after
normalization: two inputs differing only in their `Type` value make `New`
produce identical results and identical effect traces (hence identical
runners, on which every subsequent operation behaves identically). -/
theorem type_field_never_consulted (env : Env) (input : ConnInput)
    (t : String) (s : Script) :
    NewRunner env (setType input t) s = NewRunner env input s := by
  unfold NewRunner
  cases s.err? with
  | some e => rfl
  | none =>
    dsimp only
    obtain ⟨t2, h2⟩ := toConnectionEff_setType env input t
    rw [h2]
    exact newWithConn_type_irrel env s (toConnectionEff env input).1 t2
      (Effect.resolveConn :: (toConnectionEff env input).2)

end GolangExec
